import Mathlib

/-!
Verification development for the raster feature-extraction stage of the
SoilScan-Sentinel2 pipeline (`src/add_raster_features.py`).

The embedding models:
* the per-point 3x3 neighborhood read (lines 148-176), including the
  semantics of the libraries it calls: `rasterio`'s `DatasetReader.read`
  with the default `boundless=False` crops the requested window to the
  dataset extent (`Window.crop`) and returns only the intersection, and
  numpy's row assignment `band_data_3x3[i] = patch.flatten()` succeeds for
  a source of length 9 (copied) or length 1 (broadcast to all 9 cells)
  and raises `ValueError` otherwise, which the `except` arm turns into a
  NaN-filled row;
* scalar sampling via `rasterio`'s `sample` (lines 88-94), which yields
  the dataset's declared nodata value (or 0 when none is declared) for a
  coordinate whose containing pixel is outside the extent;
* band-file discovery, classification and deduplication (lines 26-60 and
  114-135);
* feature-table assembly and vegetation-index computation (lines 146-222).

Rational numbers stand in for the float pixel values; `none : Option ℚ`
models the IEEE NaN sentinel (and, for the index columns, the net effect
of NaN/±inf results followed by the global `replace([inf, -inf], nan)`
at line 222).
-/

/-- A cell value of the feature table: `none` models the not-a-number
sentinel, `some q` a real (finite) numeric value. -/
abbrev Val := Option ℚ

/-- A single-band raster dataset: pixel grid dimensions, the north-up
affine transform `x = c + a * col`, `y = f + e * row` (the `a`, `c`, `e`,
`f` coefficients of a rasterio `Affine` with zero rotation terms), the
pixel values, and the optionally declared nodata value (itself possibly
the NaN sentinel). -/
structure Raster where
  height : ℕ
  width : ℕ
  a : ℚ
  e : ℚ
  c : ℚ
  f : ℚ
  data : ℕ → ℕ → ℚ
  nodata : Option Val

/-- Row index of the containing pixel: `rasterio`'s `DatasetReader.index`
applies the inverse affine transform and floors (`op=math.floor`). -/
def Raster.rowOf (r : Raster) (y : ℚ) : ℤ := ⌊(y - r.f) / r.e⌋

/-- Column index of the containing pixel, by the floored inverse affine
transform. -/
def Raster.colOf (r : Raster) (x : ℚ) : ℤ := ⌊(x - r.c) / r.a⌋

/-- Models `src.index(x, y)` at line 160: the (row, col) pair of the
containing pixel, with no bounds check (out-of-extent coordinates yield
negative or too-large indices, they do not raise). -/
def Raster.index (r : Raster) (x y : ℚ) : ℤ × ℤ := (r.rowOf y, r.colOf x)

/-- Lower edge of a window interval after `rasterio`'s `Window.crop`
against a dataset of size `limit`: `min (max off 0) limit`. -/
def cropLo (off : ℤ) (limit : ℕ) : ℤ := min (max off 0) (limit : ℤ)

/-- Upper edge of a window interval after `rasterio`'s `Window.crop`:
`max lo (min (off + len) limit)`, never below the cropped lower edge. -/
def cropHi (off : ℤ) (len : ℕ) (limit : ℕ) : ℤ :=
  max (cropLo off limit) (min (off + (len : ℤ)) (limit : ℤ))

/-- Models `src.read(1, window=Window(coff, roff, w, h))` with the default
`boundless=False` followed by `.flatten()`: the window is cropped to the
dataset extent and the intersection is returned row-major (possibly
empty). -/
def Raster.readWindow (r : Raster) (coff roff : ℤ) (w h : ℕ) : List ℚ :=
  (List.range (cropHi roff h r.height - cropLo roff r.height).toNat).flatMap fun i =>
    (List.range (cropHi coff w r.width - cropLo coff r.width).toNat).map fun j =>
      r.data ((cropLo roff r.height).toNat + i) ((cropLo coff r.width).toNat + j)

/-- Models the numpy row assignment `band_data_3x3[i] = patch.flatten()`
inside the `try` of lines 158-166 together with its `except` arms: a
length-9 source is copied, a length-1 source is broadcast into all nine
cells, and any other length raises `ValueError`, which the handler at
lines 167-172 converts to a NaN-filled row. -/
def broadcastAssign (patch : List ℚ) : List Val :=
  if patch.length = 9 then patch.map some
  else if patch.length = 1 then List.replicate 9 (some patch.headI)
  else List.replicate 9 none

/-- The 3x3 patch produced for a point whose containing pixel is
`(row, col)`: the window `Window(col - 1, row - 1, 3, 3)` of line 162 is
read (cropped to the extent) and assigned into the 9-cell row. -/
def Raster.patchAt (r : Raster) (row col : ℤ) : List Val :=
  broadcastAssign (r.readWindow (col - 1) (row - 1) 3 3)

/-- The NeighborhoodSampler's per-point result (lines 157-172): map the
coordinate to its containing pixel and produce the 9-cell patch. -/
def Raster.samplePatch (r : Raster) (x y : ℚ) : List Val :=
  r.patchAt (r.index x y).1 (r.index x y).2

/-- The NeighborhoodSampler's whole-batch result for one band: one patch
per input point, in input order (the loop of line 157; every failure is
caught inside the loop body, so the function is total). -/
def Raster.sampleBand (r : Raster) (pts : List (ℚ × ℚ)) : List (List Val) :=
  pts.map fun p => r.samplePatch p.1 p.2

/-- The containing pixel `(row, col)` admits a full in-extent 3x3 window
centered on it. -/
def Raster.windowInside (r : Raster) (row col : ℤ) : Prop :=
  1 ≤ row ∧ row + 2 ≤ (r.height : ℤ) ∧ 1 ≤ col ∧ col + 2 ≤ (r.width : ℤ)

/-- The containing pixel `(row, col)` lies inside the raster extent. -/
def Raster.inExtent (r : Raster) (row col : ℤ) : Prop :=
  0 ≤ row ∧ row < (r.height : ℤ) ∧ 0 ≤ col ∧ col < (r.width : ℤ)

instance (r : Raster) (row col : ℤ) : Decidable (r.windowInside row col) :=
  inferInstanceAs (Decidable (1 ≤ row ∧ row + 2 ≤ (r.height : ℤ) ∧
    1 ≤ col ∧ col + 2 ≤ (r.width : ℤ)))

instance (r : Raster) (row col : ℤ) : Decidable (r.inExtent row col) :=
  inferInstanceAs (Decidable (0 ≤ row ∧ row < (r.height : ℤ) ∧
    0 ≤ col ∧ col < (r.width : ℤ)))

/-- Number of rows of the cropped 3x3 window centered at `row`. -/
def Raster.cropRows (r : Raster) (row : ℤ) : ℕ :=
  (cropHi (row - 1) 3 r.height - cropLo (row - 1) r.height).toNat

/-- Number of columns of the cropped 3x3 window centered at `col`. -/
def Raster.cropCols (r : Raster) (col : ℤ) : ℕ :=
  (cropHi (col - 1) 3 r.width - cropLo (col - 1) r.width).toNat

/-- Cell count of the cropped 3x3 window centered at `(row, col)`. -/
def Raster.cropArea (r : Raster) (row col : ℤ) : ℕ :=
  r.cropRows row * r.cropCols col

/-- The fill value `rasterio.sample.sample_gen` uses for out-of-extent
points: `dataset.nodata or 0`, i.e. the declared nodata value when one
exists and plain 0 otherwise. -/
def Raster.fillValue (r : Raster) : Val := r.nodata.getD (some 0)

/-- Models one element of `src.sample(coords)` at line 93 (rasterio's
`sample_gen`): the containing pixel's value when the pixel is inside the
extent, the nodata fill value otherwise; never an exception. -/
def Raster.sampleScalar (r : Raster) (x y : ℚ) : Val :=
  if r.inExtent (r.index x y).1 (r.index x y).2 then
    some (r.data (r.index x y).1.toNat (r.index x y).2.toNat)
  else r.fillValue

/-- The ScalarSampler's whole-batch result, line 93: one value per input
coordinate, in input order. -/
def Raster.sampleScalars (r : Raster) (pts : List (ℚ × ℚ)) : List Val :=
  pts.map fun p => r.sampleScalar p.1 p.2

-- Concrete rasters and inputs used to exercise the definitions.

/-- A 3x3 test raster with unit pixel size, origin (0, 0), north-up
(negative `e`), value `10 * row + col` at each pixel, no declared
nodata. -/
def gridRaster : Raster :=
  { height := 3, width := 3, a := 1, e := -1, c := 0, f := 0,
    data := fun i j => ((10 * i + j : ℕ) : ℚ), nodata := none }

/-- A 2x2 test raster whose top-left pixel holds 7, used to exhibit the
one-cell cropped read at a corner-adjacent point. -/
def cornerRaster : Raster :=
  { height := 2, width := 2, a := 1, e := -1, c := 0, f := 0,
    data := fun i j => ((10 * i + j + 7 : ℕ) : ℚ), nodata := none }

/-- A 2x2 scalar (yield-style) raster with no declared nodata value. -/
def yieldRasterPlain : Raster :=
  { height := 2, width := 2, a := 1, e := -1, c := 0, f := 0,
    data := fun i j => ((i + j + 1 : ℕ) : ℚ), nodata := none }

/-- A 2x2 scalar raster whose declared nodata value is NaN itself. -/
def yieldRasterNaN : Raster :=
  { height := 2, width := 2, a := 1, e := -1, c := 0, f := 0,
    data := fun i j => ((i + j + 1 : ℕ) : ℚ), nodata := some none }

-- Helper lemmas about the cropped window read.

/-- Length of a cropped window read is the product of the cropped
dimensions. -/
theorem Raster.length_readWindow (r : Raster) (coff roff : ℤ) (w h : ℕ) :
    (r.readWindow coff roff w h).length =
      (cropHi roff h r.height - cropLo roff r.height).toNat *
      (cropHi coff w r.width - cropLo coff r.width).toNat := by
  simp [Raster.readWindow, List.length_flatMap, Function.comp_def,
    List.map_const', List.sum_replicate, smul_eq_mul]

/-- A fully in-extent window read returns the whole 3x3 block row-major. -/
theorem Raster.readWindow_inside (r : Raster) (r0 c0 : ℕ)
    (hr : r0 + 3 ≤ r.height) (hc : c0 + 3 ≤ r.width) :
    r.readWindow (c0 : ℤ) (r0 : ℤ) 3 3 =
      [r.data r0 c0, r.data r0 (c0 + 1), r.data r0 (c0 + 2),
       r.data (r0 + 1) c0, r.data (r0 + 1) (c0 + 1), r.data (r0 + 1) (c0 + 2),
       r.data (r0 + 2) c0, r.data (r0 + 2) (c0 + 1), r.data (r0 + 2) (c0 + 2)] := by
  have h1 : cropLo (r0 : ℤ) r.height = (r0 : ℤ) := by
    simp only [cropLo]; omega
  have h2 : cropHi (r0 : ℤ) 3 r.height = (r0 : ℤ) + 3 := by
    simp only [cropHi, cropLo]; omega
  have h3 : cropLo (c0 : ℤ) r.width = (c0 : ℤ) := by
    simp only [cropLo]; omega
  have h4 : cropHi (c0 : ℤ) 3 r.width = (c0 : ℤ) + 3 := by
    simp only [cropHi, cropLo]; omega
  have h5 : ((r0 : ℤ) + 3 - r0).toNat = 3 := by omega
  have h6 : ((c0 : ℤ) + 3 - c0).toNat = 3 := by omega
  have h7 : ((r0 : ℤ)).toNat = r0 := by omega
  have h8 : ((c0 : ℤ)).toNat = c0 := by omega
  rw [Raster.readWindow, h1, h2, h3, h4, h5, h6, h7, h8]
  simp [List.range_succ]

/-- The patch at a containing pixel admitting a full 3x3 window is the
raw 3x3 block, row-major, wrapped as real values. -/
theorem Raster.patchAt_inside (r : Raster) (row col : ℕ)
    (h1 : 1 ≤ row) (h2 : row + 2 ≤ r.height)
    (h3 : 1 ≤ col) (h4 : col + 2 ≤ r.width) :
    r.patchAt (row : ℤ) (col : ℤ) =
      [some (r.data (row - 1) (col - 1)), some (r.data (row - 1) col),
       some (r.data (row - 1) (col + 1)),
       some (r.data row (col - 1)), some (r.data row col),
       some (r.data row (col + 1)),
       some (r.data (row + 1) (col - 1)), some (r.data (row + 1) col),
       some (r.data (row + 1) (col + 1))] := by
  have e1 : (row : ℤ) - 1 = ((row - 1 : ℕ) : ℤ) := by omega
  have e2 : (col : ℤ) - 1 = ((col - 1 : ℕ) : ℤ) := by omega
  rw [Raster.patchAt, e1, e2,
    r.readWindow_inside (row - 1) (col - 1) (by omega) (by omega)]
  have er1 : row - 1 + 1 = row := by omega
  have er2 : row - 1 + 2 = row + 1 := by omega
  have ec1 : col - 1 + 1 = col := by omega
  have ec2 : col - 1 + 2 = col + 1 := by omega
  rw [er1, er2, ec1, ec2]
  simp [broadcastAssign]

/-- The cropped row count of the 3x3 window is at most 3, and equals 3
exactly when the window's rows fit inside the extent. -/
theorem Raster.cropRows_le (r : Raster) (row : ℤ) : r.cropRows row ≤ 3 := by
  simp only [Raster.cropRows, cropHi, cropLo]; omega

/-- The cropped column count of the 3x3 window is at most 3. -/
theorem Raster.cropCols_le (r : Raster) (col : ℤ) : r.cropCols col ≤ 3 := by
  simp only [Raster.cropCols, cropHi, cropLo]; omega

/-- The cropped window covers all nine cells exactly when the full 3x3
window around the containing pixel lies inside the extent. -/
theorem Raster.cropArea_eq_nine_iff (r : Raster) (row col : ℤ) :
    r.cropArea row col = 9 ↔ r.windowInside row col := by
  constructor
  · intro h
    have hr := r.cropRows_le row
    have hc := r.cropCols_le col
    have hr3 : r.cropRows row = 3 := by
      rcases Nat.lt_or_ge (r.cropRows row) 3 with h' | h'
      · exfalso
        have : r.cropArea row col ≤ 2 * 3 := by
          calc r.cropArea row col = r.cropRows row * r.cropCols col := rfl
          _ ≤ 2 * 3 := Nat.mul_le_mul (by omega) hc
        omega
      · omega
    have hc3 : r.cropCols col = 3 := by
      have : r.cropArea row col = r.cropRows row * r.cropCols col := rfl
      rw [hr3] at this
      omega
    refine ⟨?_, ?_, ?_, ?_⟩ <;>
      [skip; skip; skip; skip] <;>
      first
      | (simp only [Raster.cropRows, cropHi, cropLo] at hr3; omega)
      | (simp only [Raster.cropCols, cropHi, cropLo] at hc3; omega)
  · rintro ⟨h1, h2, h3, h4⟩
    have hr3 : r.cropRows row = 3 := by
      simp only [Raster.cropRows, cropHi, cropLo]; omega
    have hc3 : r.cropCols col = 3 := by
      simp only [Raster.cropCols, cropHi, cropLo]; omega
    simp [Raster.cropArea, hr3, hc3]

/-- The length of the raw cropped read underlying a patch equals the
cropped area. -/
theorem Raster.length_read_patch (r : Raster) (row col : ℤ) :
    (r.readWindow (col - 1) (row - 1) 3 3).length = r.cropArea row col := by
  rw [Raster.length_readWindow]
  rfl

/-- A patch always holds exactly nine cells, whatever the point. -/
theorem Raster.length_samplePatch (r : Raster) (x y : ℚ) :
    (r.samplePatch x y).length = 9 := by
  rw [Raster.samplePatch, Raster.patchAt, broadcastAssign]
  split
  · simpa
  · split <;> simp

-- Band catalog: filename classification and deduplication (lines 26-60,
-- 114-135 of `add_raster_features.py`).

/-- Boolean test that `pat` is a leading segment of `s` (character by
character). -/
def listStartsWith : List Char → List Char → Bool
  | _, [] => true
  | [], _ :: _ => false
  | ch :: s, d :: t => ch == d && listStartsWith s t

/-- Boolean substring test over character lists: models Python's
`pattern in filename`. -/
def hasSubstring (s pat : List Char) : Bool :=
  match s with
  | [] => listStartsWith [] pat
  | ch :: t => listStartsWith (ch :: t) pat || hasSubstring t pat

/-- The non-spectral auxiliary product markers of line 45: aerosol
optical thickness, true-color composite, water vapor, scene
classification. -/
def skipMarkers : List String := ["AOT", "TCI", "WVP", "SCL"]

/-- Models `any(pattern in filename for pattern in skip_patterns)` at
line 46. -/
def hasSkipMarker (filename : String) : Bool :=
  skipMarkers.any fun m => hasSubstring filename.data m.data

/-- The two characters after `B` allowed by the strict band-code class
`0[1-9]|1[0-2]|8A` of the regex at line 51. -/
def isStrictBandCode (c1 c2 : Char) : Bool :=
  (c1 == '0' && ['1', '2', '3', '4', '5', '6', '7', '8', '9'].contains c2) ||
  (c1 == '1' && ['0', '1', '2'].contains c2) ||
  (c1 == '8' && c2 == 'A')

/-- Character class `[A-Z0-9]` of the fallback regex at line 52. -/
def isUpperOrDigit (ch : Char) : Bool :=
  (decide ('A' ≤ ch) && decide (ch ≤ 'Z')) ||
  (decide ('0' ≤ ch) && decide (ch ≤ '9'))

/-- Attempt the strict pattern `_(B(0[1-9]|1[0-2]|8A))_` at the current
position; returns the captured group. -/
def matchStrictAt : List Char → Option (List Char)
  | '_' :: 'B' :: c1 :: c2 :: '_' :: _ =>
    if isStrictBandCode c1 c2 then some ['B', c1, c2] else none
  | _ => none

/-- Leftmost search for the strict band-code pattern: models
`re.search(r'_(B(0[1-9]|1[0-2]|8A))_', filename)`. -/
def searchStrict : List Char → Option (List Char)
  | [] => none
  | ch :: t =>
    match matchStrictAt (ch :: t) with
    | some res => some res
    | none => searchStrict t

/-- Suffix match for the reversed characters of the fallback pattern
`_([A-Z0-9]{3})\.jp2$`. -/
def matchGenericRev : List Char → Option (List Char)
  | '2' :: 'p' :: 'j' :: '.' :: c3 :: c2 :: c1 :: '_' :: _ =>
    if isUpperOrDigit c1 && isUpperOrDigit c2 && isUpperOrDigit c3 then
      some [c1, c2, c3]
    else none
  | _ => none

/-- End-anchored search for the fallback pattern
`_([A-Z0-9]{3})\.jp2$`. -/
def matchGenericEnd (s : List Char) : Option (List Char) :=
  matchGenericRev s.reverse

/-- Models `extract_band_name` (lines 42-60): reject filenames holding an
auxiliary marker outright, then try the strict band-code pattern, then
the generic three-character fallback, else no identifier. -/
def extract_band_name (filename : String) : Option String :=
  if hasSkipMarker filename then none
  else
    match searchStrict filename.data with
    | some cs => some (String.mk cs)
    | none =>
      match matchGenericEnd filename.data with
      | some cs => some (String.mk cs)
      | none => none

/-- Characters after the last `/`: models `os.path.basename` at
line 119. -/
def basenameChars (s : List Char) : List Char :=
  s.foldl (fun acc ch => if ch == '/' then [] else acc ++ [ch]) []

/-- String form of `os.path.basename`. -/
def basename (p : String) : String := String.mk (basenameChars p.data)

/-- Models `find_jp2_files` (lines 26-40): the glob results of the three
resolution sub-directories are concatenated in the fixed order R10m,
R20m, R60m. -/
def find_jp2_files (r10 r20 r60 : List String) : List String :=
  r10 ++ r20 ++ r60

/-- Models the classification and deduplication loop of lines 114-128.
Arguments: remaining file paths and the set of band names already
processed; result: the kept `(file, band)` pairs, the basenames of
skipped non-band files, and the band names of skipped duplicates. -/
def catalogBands : List String → List String →
    List (String × String) × List String × List String
  | [], _ => ([], [], [])
  | fp :: rest, processed =>
    match extract_band_name (basename fp) with
    | some b =>
      if b ∈ processed then
        let rec_ := catalogBands rest processed
        (rec_.1, rec_.2.1, b :: rec_.2.2)
      else
        let rec_ := catalogBands rest (b :: processed)
        ((fp, b) :: rec_.1, rec_.2.1, rec_.2.2)
    | none =>
      let rec_ := catalogBands rest processed
      (rec_.1, basename fp :: rec_.2.1, rec_.2.2)

/-- The deduplicated band list `band_files` built from a `jp2_files`
traversal (line 115-128, starting from an empty processed set). -/
def bandFilesOf (jp2Files : List String) : List (String × String) :=
  (catalogBands jp2Files []).1

/-- The duplicate band names reported as skipped during the traversal. -/
def skippedDupsOf (jp2Files : List String) : List String :=
  (catalogBands jp2Files []).2.2

/-- Fatal outcomes of the Sentinel-2 band stage: the dedicated
`exit(1)` with the clear message `No .jp2 files found in ...` at
lines 108-110, versus the uncaught Python `IndexError` raised by
`band_files[0]` at line 134 when every discovered file was filtered
out. -/
inductive RunError where
  | noJp2Files : RunError
  | indexOutOfRange : RunError
deriving DecidableEq

/-- Models lines 107-135: check that discovery found files (dedicated
fatal error otherwise), classify and deduplicate, then read the target
CRS from the first band file - which raises an unhandled `IndexError`
when the classified list is empty. -/
def targetCrsStage (jp2Files : List String) (crsOf : String → String) :
    Except RunError String :=
  if jp2Files.isEmpty then .error .noJp2Files
  else
    match bandFilesOf jp2Files with
    | [] => .error .indexOutOfRange
    | (fp, _) :: _ => .ok (crsOf fp)

-- Feature table assembly (lines 146-222).

/-- A pandas DataFrame, reduced to what the claims need: a row count
(the RangeIndex) and named columns. -/
structure DataFrame where
  nrows : ℕ
  cols : List (String × List Val)

/-- A DataFrame built from a column dictionary (`pd.DataFrame(dict)` at
lines 180 and 218): its row count is the common column length (modelled
as the maximum, 0 when there are no columns). -/
def DataFrame.ofCols (cs : List (String × List Val)) : DataFrame :=
  ⟨(cs.map fun kv => kv.2.length).foldr max 0, cs⟩

/-- Models `pd.concat([d1, d2], axis=1)` on aligned RangeIndexes: the
union of the columns, over the union (maximum) of the row ranges. -/
def DataFrame.hconcat (d1 d2 : DataFrame) : DataFrame :=
  ⟨max d1.nrows d2.nrows, d1.cols ++ d2.cols⟩

/-- Column lookup by name (`df[name]`, first match). -/
def lookupCol (cs : List (String × List Val)) (nm : String) :
    Option (List Val) :=
  (cs.find? fun kv => kv.1 == nm).map fun kv => kv.2

/-- The nine neighbor column names of line 152:
`[f"{band_name}_{i+1}" for i in range(9)]`. -/
def neighborCols (band : String) : List String :=
  (List.range 9).map fun i => band ++ "_" ++ toString (i + 1)

/-- The nine columns one band contributes (lines 152-176): column `j`
holds, for each point in input order, cell `j` of that point's patch. -/
def bandColumns (band : String) (r : Raster) (pts : List (ℚ × ℚ)) :
    List (String × List Val) :=
  (List.range 9).map fun j =>
    (band ++ "_" ++ toString (j + 1),
     pts.map fun p => (r.samplePatch p.1 p.2).getD j none)

/-- The `all_band_data` dictionary of lines 146-176: the columns of every
band, in band order. -/
def allBandData (bands : List (String × Raster)) (pts : List (ℚ × ℚ)) :
    List (String × List Val) :=
  bands.flatMap fun br => bandColumns br.1 br.2 pts

/-- Normalized difference `(vA - vB) / (vA + vB)` in pandas float
semantics followed by the `replace([inf, -inf], nan)` of line 222: a NaN
operand propagates, a zero denominator yields NaN (0/0) or ±inf (x/0) -
both replaced by the sentinel - and otherwise the exact quotient. -/
def normDiff (vA vB : Val) : Val :=
  match vA, vB with
  | some qa, some qb =>
    if qa + qb = 0 then none else some ((qa - qb) / (qa + qb))
  | _, _ => none

/-- One vegetation index column (lines 193-212): present only when both
required center-pixel columns exist. -/
def viPair (cs : List (String × List Val)) (nm bA bB : String) :
    Option (String × List Val) :=
  match lookupCol cs (bA ++ "_5"), lookupCol cs (bB ++ "_5") with
  | some colA, some colB => some (nm, List.zipWith normDiff colA colB)
  | _, _ => none

/-- The `vi_data` dictionary of lines 190-212: NDVI from (B08, B04),
NDRE from (B08, B05), GNDVI from (B08, B03); an index whose required
columns are missing is omitted. -/
def viData (cs : List (String × List Val)) : List (String × List Val) :=
  [viPair cs "NDVI" "B08" "B04", viPair cs "NDRE" "B08" "B05",
   viPair cs "GNDVI" "B08" "B03"].filterMap id

/-- Models the yield-feature loop of lines 88-95: one scalar column per
yield raster, sampled with the untransformed coordinates. -/
def addYieldFeatures (df : DataFrame) (yields : List (String × Raster))
    (ptsW : List (ℚ × ℚ)) : DataFrame :=
  ⟨df.nrows, df.cols ++ yields.map fun yr => (yr.1, yr.2.sampleScalars ptsW)⟩

/-- The feature-table pipeline of lines 88-222: yield scalars on the
geographic coordinates, then all per-band neighborhood columns on the
projected coordinates, then the vegetation indices computed from the
accumulated columns. -/
def addRasterFeatures (df0 : DataFrame) (ptsW ptsP : List (ℚ × ℚ))
    (yields bands : List (String × Raster)) : DataFrame :=
  let df1 := addYieldFeatures df0 yields ptsW
  let df2 := df1.hconcat (DataFrame.ofCols (allBandData bands ptsP))
  df2.hconcat (DataFrame.ofCols (viData df2.cols))

-- Helper lemmas about the deduplication loop.

/-- Membership characterization of the deduplicated band list: an entry
`(fp, b)` is kept exactly when `b` is not already processed and `fp` is
the first traversed file whose extracted band name is `b`. -/
theorem catalogBands_fst_iff (files : List String) :
    ∀ (processed : List String) (fp b : String),
    (fp, b) ∈ (catalogBands files processed).1 ↔
      b ∉ processed ∧
        files.find? (fun g => extract_band_name (basename g) == some b) =
          some fp := by
  induction files with
  | nil => intro processed fp b; simp [catalogBands]
  | cons g rest ih =>
    intro processed fp b
    rcases hg : extract_band_name (basename g) with _ | b'
    · simp only [catalogBands, hg, List.find?_cons]
      simp only [hg, Option.none_beq_some, cond_false]
      exact ih processed fp b
    · by_cases hmem : b' ∈ processed
      · simp only [catalogBands, hg, if_pos hmem, List.find?_cons]
        by_cases hbb : b = b'
        · subst hbb
          rw [ih processed fp b]
          simp [hmem]
        · have hpred : (b' == b) = false := by
            simp; exact fun h => hbb h.symm
          simp only [Option.some_beq_some, hpred, cond_false]
          exact ih processed fp b
      · simp only [catalogBands, hg, if_neg hmem, List.mem_cons, List.find?_cons]
        by_cases hbb : b = b'
        · subst hbb
          simp only [Option.some_beq_some, beq_self_eq_true, cond_true]
          rw [ih (b :: processed) fp b]
          simp [hmem, Prod.ext_iff, eq_comm]
        · have hpred : (b' == b) = false := by
            simp; exact fun h => hbb h.symm
          simp only [Option.some_beq_some, hpred, cond_false]
          rw [ih (b' :: processed) fp b]
          simp [Prod.ext_iff, hbb]

/-- The kept band identifiers are pairwise distinct and none of them was
already in the processed set. -/
theorem catalogBands_snd_nodup (files : List String) :
    ∀ processed : List String,
    ((catalogBands files processed).1.map Prod.snd).Nodup ∧
      ∀ b ∈ (catalogBands files processed).1.map Prod.snd, b ∉ processed := by
  induction files with
  | nil => intro processed; simp [catalogBands]
  | cons g rest ih =>
    intro processed
    rcases hg : extract_band_name (basename g) with _ | b'
    · simpa only [catalogBands, hg] using ih processed
    · by_cases hmem : b' ∈ processed
      · simpa only [catalogBands, hg, if_pos hmem] using ih processed
      · simp only [catalogBands, hg, if_neg hmem, List.map_cons, List.nodup_cons,
          List.mem_cons]
        obtain ⟨hnd, hnp⟩ := ih (b' :: processed)
        refine ⟨⟨fun hb => ?_, hnd⟩, ?_⟩
        · exact (hnp b' hb) (List.mem_cons_self b' processed)
        · rintro b (rfl | hb)
          · exact hmem
          · exact fun hbp => (hnp b hb) (List.mem_cons_of_mem _ hbp)

/-- A file whose band identifier was already claimed - by the processed
set or by an earlier file in the traversal - gets its identifier
reported in the skipped-duplicates list. -/
theorem catalogBands_dup_mem (l1 : List String) :
    ∀ (processed l2 : List String) (g b : String),
    extract_band_name (basename g) = some b →
    (b ∈ processed ∨ ∃ g1 ∈ l1, extract_band_name (basename g1) = some b) →
    b ∈ (catalogBands (l1 ++ g :: l2) processed).2.2 := by
  induction l1 with
  | nil =>
    intro processed l2 g b hg hcond
    rcases hcond with hp | ⟨g1, hg1, _⟩
    · simp only [List.nil_append, catalogBands, hg, if_pos hp]
      exact List.mem_cons_self b _
    · exact absurd hg1 (List.not_mem_nil g1)
  | cons g0 l1' ih =>
    intro processed l2 g b hg hcond
    rcases hg0 : extract_band_name (basename g0) with _ | b0
    · simp only [List.cons_append, catalogBands, hg0]
      refine ih processed l2 g b hg ?_
      rcases hcond with hp | ⟨g1, hg1, he⟩
      · exact Or.inl hp
      · rcases List.mem_cons.mp hg1 with rfl | hg1'
        · rw [hg0] at he; exact absurd he (by simp)
        · exact Or.inr ⟨g1, hg1', he⟩
    · by_cases hmem : b0 ∈ processed
      · simp only [List.cons_append, catalogBands, hg0, if_pos hmem]
        refine List.mem_cons_of_mem _ (ih processed l2 g b hg ?_)
        rcases hcond with hp | ⟨g1, hg1, he⟩
        · exact Or.inl hp
        · rcases List.mem_cons.mp hg1 with rfl | hg1'
          · rw [hg0] at he
            exact Or.inl (by
              obtain rfl : b0 = b := by simpa using he
              exact hmem)
          · exact Or.inr ⟨g1, hg1', he⟩
      · simp only [List.cons_append, catalogBands, hg0, if_neg hmem]
        refine ih (b0 :: processed) l2 g b hg ?_
        rcases hcond with hp | ⟨g1, hg1, he⟩
        · exact Or.inl (List.mem_cons_of_mem _ hp)
        · rcases List.mem_cons.mp hg1 with rfl | hg1'
          · rw [hg0] at he
            obtain rfl : b0 = b := by simpa using he
            exact Or.inl (List.mem_cons_self _ _)
          · exact Or.inr ⟨g1, hg1', he⟩

/-- Case analysis for a patch: a full window is copied cell by cell, a
one-cell cropped read is broadcast into all nine cells, and every other
cropped shape raises the caught `ValueError` and yields the NaN row. -/
theorem Raster.patchAt_cases (r : Raster) (row col : ℤ) :
    (r.cropArea row col = 9 ∧
      r.patchAt row col = (r.readWindow (col - 1) (row - 1) 3 3).map some) ∨
    (r.cropArea row col = 1 ∧
      ∃ v, r.patchAt row col = List.replicate 9 (some v)) ∨
    (r.cropArea row col ≠ 9 ∧ r.cropArea row col ≠ 1 ∧
      r.patchAt row col = List.replicate 9 none) := by
  have hlen := r.length_read_patch row col
  rw [Raster.patchAt, broadcastAssign]
  by_cases h9 : (r.readWindow (col - 1) (row - 1) 3 3).length = 9
  · exact Or.inl ⟨by omega, by rw [if_pos h9]⟩
  · by_cases h1 : (r.readWindow (col - 1) (row - 1) 3 3).length = 1
    · refine Or.inr (Or.inl ⟨by omega, ?_⟩)
      rw [if_neg h9, if_pos h1]
      exact ⟨_, rfl⟩
    · exact Or.inr (Or.inr ⟨by omega, by omega, by rw [if_neg h9, if_neg h1]⟩)

/-- Upper bound for the row count a column dictionary induces. -/
theorem foldr_max_le (l : List ℕ) (n : ℕ) (h : ∀ m ∈ l, m ≤ n) :
    l.foldr max 0 ≤ n := by
  induction l with
  | nil => simp
  | cons a t ih =>
    simp only [List.foldr_cons]
    exact max_le (h a (List.mem_cons_self a t))
      (ih fun m hm => h m (List.mem_cons_of_mem a hm))

/-- A successful column lookup returns one of the stored columns. -/
theorem lookupCol_mem (cs : List (String × List Val)) (nm : String)
    (colv : List Val) (h : lookupCol cs nm = some colv) :
    ∃ k, (k, colv) ∈ cs := by
  rw [lookupCol] at h
  rcases hf : cs.find? fun kv => kv.1 == nm with _ | kv
  · rw [hf] at h; simp at h
  · rw [hf] at h
    simp only [Option.map_some', Option.some.injEq] at h
    exact ⟨kv.1, by rw [show (kv.1, colv) = kv from Prod.ext rfl h.symm]
                    exact List.mem_of_find?_eq_some hf⟩

/-- Every vegetation-index column is a normalized difference of two
looked-up columns. -/
theorem viData_col_shape (cs : List (String × List Val))
    (c : String × List Val) (h : c ∈ viData cs) :
    ∃ nm colA colB, c = (nm, List.zipWith normDiff colA colB) ∧
      (∃ k, (k, colA) ∈ cs) ∧ ∃ k, (k, colB) ∈ cs := by
  rw [viData] at h
  simp only [List.mem_filterMap, List.mem_cons, List.not_mem_nil, or_false,
    id_eq] at h
  obtain ⟨o, ho, hoc⟩ := h
  have hshape : ∀ nm bA bB, viPair cs nm bA bB = some c →
      ∃ nm' colA colB, c = (nm', List.zipWith normDiff colA colB) ∧
        (∃ k, (k, colA) ∈ cs) ∧ ∃ k, (k, colB) ∈ cs := by
    intro nm bA bB hvp
    rw [viPair] at hvp
    rcases hA : lookupCol cs (bA ++ "_5") with _ | colA <;> rw [hA] at hvp
    · exact absurd hvp (by simp)
    · rcases hB : lookupCol cs (bB ++ "_5") with _ | colB <;> rw [hB] at hvp
      · exact absurd hvp (by simp)
      · simp only [Option.some.injEq] at hvp
        exact ⟨nm, colA, colB, hvp.symm, lookupCol_mem _ _ _ hA,
          lookupCol_mem _ _ _ hB⟩
  rcases ho with rfl | rfl | rfl
  · exact hshape _ _ _ hoc
  · exact hshape _ _ _ hoc
  · exact hshape _ _ _ hoc

-- Claim theorems.

/-- C9 (confirmed): a filename containing one of the auxiliary markers
AOT, TCI, WVP, SCL yields no band identifier - the marker check runs
before, and takes precedence over, the ordered pattern rules; when no
marker is present the strict band-code pattern is tried first and the
generic three-character fallback only on its failure. -/
theorem extract_band_name_marker_precedence :
    (∀ filename : String, hasSkipMarker filename = true →
        extract_band_name filename = none) ∧
    (∀ filename : String, hasSkipMarker filename = false →
      ∀ cs : List Char, searchStrict filename.data = some cs →
        extract_band_name filename = some (String.mk cs)) ∧
    (∀ filename : String, hasSkipMarker filename = false →
      searchStrict filename.data = none →
      ∀ cs : List Char, matchGenericEnd filename.data = some cs →
        extract_band_name filename = some (String.mk cs)) := by
  refine ⟨?_, ?_, ?_⟩
  · intro fn h
    rw [extract_band_name, if_pos h]
  · intro fn h cs hs
    rw [extract_band_name, if_neg (by simp [h]), hs]
  · intro fn h hs cs hgen
    rw [extract_band_name, if_neg (by simp [h]), hs, hgen]

/-- Witness for C9: a filename that contains the TCI marker and also
matches the strict band pattern `_B04_` is rejected, while the same
filename without the marker yields `B04`. -/
theorem extract_band_name_marker_precedence_witness :
    hasSkipMarker "T32TQM_20230702T100031_B04_TCI.jp2" = true ∧
    searchStrict "T32TQM_20230702T100031_B04_TCI.jp2".data =
      some ['B', '0', '4'] ∧
    extract_band_name "T32TQM_20230702T100031_B04_TCI.jp2" = none ∧
    extract_band_name "T32TQM_20230702T100031_B04_10m.jp2" = some "B04" :=
  ⟨by decide, by decide,
   extract_band_name_marker_precedence.1 _ (by decide),
   extract_band_name_marker_precedence.2.1 _ (by decide) ['B', '0', '4']
     (by decide)⟩

/-- C8 (confirmed): the deduplicated catalog never holds two entries
with the same band identifier; an entry `(fp, b)` is kept exactly when
`fp` is the first file in traversal order whose extracted identifier is
`b`; and a file whose identifier already appeared earlier in the
traversal has that identifier reported in the skipped-duplicates
list. -/
theorem bandCatalog_dedup_first (files : List String) :
    ((bandFilesOf files).map Prod.snd).Nodup ∧
    (∀ fp b : String, (fp, b) ∈ bandFilesOf files ↔
        files.find? (fun g => extract_band_name (basename g) == some b) =
          some fp) ∧
    (∀ (l1 l2 : List String) (g b : String), files = l1 ++ g :: l2 →
      extract_band_name (basename g) = some b →
      (∃ g1 ∈ l1, extract_band_name (basename g1) = some b) →
      b ∈ skippedDupsOf files) := by
  refine ⟨(catalogBands_snd_nodup files []).1, ?_, ?_⟩
  · intro fp b
    rw [bandFilesOf, catalogBands_fst_iff]
    simp
  · intro l1 l2 g b hsplit hg hdup
    rw [skippedDupsOf, hsplit]
    exact catalogBands_dup_mem l1 [] l2 g b hg (Or.inr hdup)

/-- Witness for C8: two files both classifying as `B04` - the first one
is kept as the catalog entry, the identifier appears once, and the later
file is reported as a skipped duplicate. -/
theorem bandCatalog_dedup_first_witness :
    (("R10m/T32_B04_10m.jp2", "B04") ∈
        bandFilesOf ["R10m/T32_B04_10m.jp2", "R20m/T32_B04_20m.jp2"]) ∧
    "B04" ∈ skippedDupsOf ["R10m/T32_B04_10m.jp2", "R20m/T32_B04_20m.jp2"] ∧
    ((bandFilesOf ["R10m/T32_B04_10m.jp2", "R20m/T32_B04_20m.jp2"]).map
        Prod.snd).Nodup :=
  ⟨((bandCatalog_dedup_first _).2.1 _ _).mpr (by decide),
   (bandCatalog_dedup_first _).2.2 ["R10m/T32_B04_10m.jp2"] []
     "R20m/T32_B04_20m.jp2" "B04" rfl (by decide)
     ⟨"R10m/T32_B04_10m.jp2", by decide, by decide⟩,
   (bandCatalog_dedup_first _).1⟩

/-- C10 (confirmed): because `find_jp2_files` enumerates the resolution
directories in the fixed order R10m, R20m, R60m and deduplication keeps
the first occurrence, a band identifier present in R10m is always kept
from an R10m file; one absent from R10m but present in R20m is kept from
an R20m file; and any band present anywhere gets a catalog entry. -/
theorem bandCatalog_highest_resolution (r10 r20 r60 : List String)
    (b : String) :
    (∀ q : String,
      (q, b) ∈ bandFilesOf (find_jp2_files r10 r20 r60) →
      ((∃ g1 ∈ r10, extract_band_name (basename g1) = some b) → q ∈ r10) ∧
      ((∀ g1 ∈ r10, extract_band_name (basename g1) ≠ some b) →
       (∃ g1 ∈ r20, extract_band_name (basename g1) = some b) → q ∈ r20)) ∧
    ((∃ g1 ∈ find_jp2_files r10 r20 r60,
        extract_band_name (basename g1) = some b) →
      ∃ q, (q, b) ∈ bandFilesOf (find_jp2_files r10 r20 r60)) := by
  have hchar : ∀ q : String,
      (q, b) ∈ bandFilesOf (find_jp2_files r10 r20 r60) ↔
        (find_jp2_files r10 r20 r60).find?
          (fun g => extract_band_name (basename g) == some b) = some q := by
    intro q
    rw [bandFilesOf, catalogBands_fst_iff]
    simp
  constructor
  · intro q hq
    rw [hchar] at hq
    rw [find_jp2_files, List.find?_append, List.find?_append] at hq
    constructor
    · rintro ⟨g1, hg1, he⟩
      have h10 : (r10.find? fun g => extract_band_name (basename g) == some b).isSome := by
        rw [List.find?_isSome]
        exact ⟨g1, hg1, by simp [he]⟩
      obtain ⟨q0, hq0⟩ := Option.isSome_iff_exists.mp h10
      rw [hq0] at hq
      obtain rfl : q0 = q := by simpa using hq
      exact List.mem_of_find?_eq_some hq0
    · intro hnone ⟨g1, hg1, he⟩
      have h10 : r10.find? (fun g => extract_band_name (basename g) == some b) = none := by
        rw [List.find?_eq_none]
        intro g hg
        simp only [beq_iff_eq]
        exact hnone g hg
      rw [h10, Option.none_or] at hq
      have h20 : (r20.find? fun g => extract_band_name (basename g) == some b).isSome := by
        rw [List.find?_isSome]
        exact ⟨g1, hg1, by simp [he]⟩
      obtain ⟨q0, hq0⟩ := Option.isSome_iff_exists.mp h20
      rw [hq0] at hq
      obtain rfl : q0 = q := by simpa using hq
      exact List.mem_of_find?_eq_some hq0
  · rintro ⟨g1, hg1, he⟩
    have hsome : ((find_jp2_files r10 r20 r60).find?
        (fun g => extract_band_name (basename g) == some b)).isSome := by
      rw [List.find?_isSome]
      exact ⟨g1, hg1, by simp [he]⟩
    obtain ⟨q0, hq0⟩ := Option.isSome_iff_exists.mp hsome
    exact ⟨q0, (hchar q0).mpr hq0⟩

/-- Witness for C10: band `B04` present at both 10 m and 20 m resolution
is catalogued from the R10m file. -/
theorem bandCatalog_highest_resolution_witness :
    bandFilesOf (find_jp2_files ["R10m/A_B04_10m.jp2"]
        ["R20m/A_B04_20m.jp2"] []) = [("R10m/A_B04_10m.jp2", "B04")] ∧
    "R10m/A_B04_10m.jp2" ∈ ["R10m/A_B04_10m.jp2"] :=
  ⟨by decide,
   ((bandCatalog_highest_resolution ["R10m/A_B04_10m.jp2"]
        ["R20m/A_B04_20m.jp2"] [] "B04").1 "R10m/A_B04_10m.jp2"
        (by decide)).1 ⟨"R10m/A_B04_10m.jp2", by decide, by decide⟩⟩

/-- C7 counterexample: a discovery result holding exactly one file, a
true-color composite, classifies and deduplicates to an *empty* band
list, yet the run does not stop with the dedicated no-bands error - it
aborts with the unhandled `IndexError` raised by `band_files[0]` at
line 134. -/
theorem targetCrsStage_counterexample :
    bandFilesOf ["T32TQM_20230702T100031_TCI_10m.jp2"] = [] ∧
    targetCrsStage ["T32TQM_20230702T100031_TCI_10m.jp2"]
        (fun _ => "EPSG:32632") = .error .indexOutOfRange ∧
    RunError.indexOutOfRange ≠ RunError.noJp2Files :=
  ⟨by decide, rfl, by decide⟩

/-- C7 (corrected): when discovery itself finds no files the run stops
with the dedicated clear-cause error of lines 108-110; but when files
were discovered and classification/deduplication filters all of them
out, the run aborts with an unhandled `IndexError` at the target-CRS
step, not with a dedicated error. -/
theorem targetCrsStage_empty_cases (jp2Files : List String)
    (crsOf : String → String) :
    (jp2Files = [] → targetCrsStage jp2Files crsOf = .error .noJp2Files) ∧
    (jp2Files ≠ [] → bandFilesOf jp2Files = [] →
      targetCrsStage jp2Files crsOf = .error .indexOutOfRange) := by
  constructor
  · rintro rfl
    rfl
  · intro hne hempty
    rw [targetCrsStage, if_neg (by simpa using hne), hempty]

/-- Witness for C7: both fatal shapes at concrete inputs. -/
theorem targetCrsStage_empty_cases_witness :
    targetCrsStage [] (fun _ => "EPSG:32632") = .error .noJp2Files ∧
    targetCrsStage ["T32TQM_20230702T100031_WVP_20m.jp2"]
        (fun _ => "EPSG:32632") = .error .indexOutOfRange :=
  ⟨(targetCrsStage_empty_cases [] _).1 rfl,
   (targetCrsStage_empty_cases _ _).2 (by decide) (by decide)⟩

/-- C1 counterexample: the point (-1/2, 1/2) of the 2x2 `cornerRaster`
has containing pixel (-1, -1), so its 3x3 window falls partly outside
the extent (it still covers the in-extent pixel (0, 0)); the claim
demands a patch of nine sentinel cells, but the cropped read is the
single corner cell and numpy broadcasts its value 7 into all nine
cells. -/
theorem neighborhood_corner_broadcast :
    ¬ cornerRaster.windowInside (cornerRaster.index (-1/2) (1/2)).1
        (cornerRaster.index (-1/2) (1/2)).2 ∧
    cornerRaster.samplePatch (-1/2) (1/2) = List.replicate 9 (some 7) ∧
    cornerRaster.samplePatch (-1/2) (1/2) ≠ List.replicate 9 (none : Val) := by
  have hidx : cornerRaster.index (-1/2) (1/2) = (-1, -1) := by
    rw [Raster.index, Raster.rowOf, Raster.colOf]
    rw [Prod.ext_iff]
    constructor <;> · norm_num [cornerRaster]
  have hread : cornerRaster.readWindow (-1 - 1) (-1 - 1) 3 3 =
      [cornerRaster.data 0 0] := by
    have h1 : ((cropHi (-1 - 1) 3 cornerRaster.height -
        cropLo (-1 - 1) cornerRaster.height)).toNat = 1 := by decide
    have h2 : ((cropHi (-1 - 1) 3 cornerRaster.width -
        cropLo (-1 - 1) cornerRaster.width)).toNat = 1 := by decide
    have h3 : (cropLo (-1 - 1) cornerRaster.height).toNat = 0 := by decide
    have h4 : (cropLo (-1 - 1) cornerRaster.width).toNat = 0 := by decide
    rw [Raster.readWindow, h1, h2, h3, h4]
    rfl
  have hpatch : cornerRaster.samplePatch (-1/2) (1/2) =
      List.replicate 9 (some (cornerRaster.data 0 0)) := by
    rw [Raster.samplePatch, hidx, Raster.patchAt, hread, broadcastAssign]
    simp
  have hval : cornerRaster.data 0 0 = 7 := by
    norm_num [cornerRaster]
  refine ⟨?_, by rw [hpatch, hval], by rw [hpatch, hval]; simp⟩
  rw [hidx]
  decide

/-- C1 (corrected): for a coordinate whose 3x3 window does not lie fully
inside the raster extent, the patch is nine sentinel cells - except when
the window's intersection with the extent is exactly one cell, in which
case numpy broadcasts that single pixel value into all nine cells. In
every case the patch never mixes real and sentinel values, and sampling
is total: the batch result keeps one patch per input point. -/
theorem neighborhood_oob_patch (r : Raster) (x y : ℚ)
    (h : ¬ r.windowInside (r.index x y).1 (r.index x y).2) :
    (r.cropArea (r.index x y).1 (r.index x y).2 ≠ 1 →
        r.samplePatch x y = List.replicate 9 none) ∧
    (r.cropArea (r.index x y).1 (r.index x y).2 = 1 →
        ∃ v, r.samplePatch x y = List.replicate 9 (some v)) ∧
    ((∀ cell ∈ r.samplePatch x y, cell = none) ∨
        ∀ cell ∈ r.samplePatch x y, cell ≠ none) ∧
    (∀ pts : List (ℚ × ℚ), (r.sampleBand pts).length = pts.length) := by
  have hne : r.cropArea (r.index x y).1 (r.index x y).2 ≠ 9 := by
    intro h9
    exact h ((r.cropArea_eq_nine_iff _ _).mp h9)
  rcases r.patchAt_cases (r.index x y).1 (r.index x y).2 with
    ⟨h9, _⟩ | ⟨h1, v, hv⟩ | ⟨_, h1, hp⟩
  · exact absurd h9 hne
  · refine ⟨fun hc => absurd h1 hc, fun _ => ⟨v, ?_⟩, ?_, ?_⟩
    · rw [Raster.samplePatch, hv]
    · right
      rw [Raster.samplePatch, hv]
      intro cell hc
      rw [List.eq_of_mem_replicate hc]
      simp
    · intro pts; simp [Raster.sampleBand]
  · refine ⟨fun _ => ?_, fun hc => absurd hc h1, ?_, ?_⟩
    · rw [Raster.samplePatch, hp]
    · left
      rw [Raster.samplePatch, hp]
      intro cell hc
      exact List.eq_of_mem_replicate hc
    · intro pts; simp [Raster.sampleBand]

/-- Witness for C1 (corrected): the far-outside point (10, 10) of the
2x2 corner raster produces the all-sentinel patch. -/
theorem neighborhood_oob_patch_witness :
    cornerRaster.samplePatch 10 10 = List.replicate 9 none := by
  have hidx : cornerRaster.index 10 10 = (-10, 10) := by
    rw [Raster.index, Raster.rowOf, Raster.colOf]
    rw [Prod.ext_iff]
    constructor <;> · norm_num [cornerRaster]
  refine (neighborhood_oob_patch cornerRaster 10 10 ?_).1 ?_
  · rw [hidx]
    decide
  · rw [hidx]
    decide

/-- The nine neighbor column names, written out. -/
theorem neighborCols_explicit (band : String) :
    neighborCols band =
      [band ++ "_1", band ++ "_2", band ++ "_3", band ++ "_4", band ++ "_5",
       band ++ "_6", band ++ "_7", band ++ "_8", band ++ "_9"] := by
  rw [neighborCols, show List.range 9 = [0, 1, 2, 3, 4, 5, 6, 7, 8] from rfl]
  simp only [List.map_cons, List.map_nil, String.append_assoc]
  rfl

/-- C4 (confirmed): the containing pixel is found by flooring the
inverse affine mapping; the window starts at (row - 1, col - 1), spans
3x3, is read from the single band and flattened row-major; and the nine
columns are named `{band}_{1..9}` with position 1 the window's top-left
cell, 5 its exact center, 9 its bottom-right cell. -/
theorem neighborhood_window_layout (r : Raster) (x y : ℚ) (row col : ℕ)
    (band : String)
    (hidx : r.index x y = ((row : ℤ), (col : ℤ)))
    (h1 : 1 ≤ row) (h2 : row + 2 ≤ r.height)
    (h3 : 1 ≤ col) (h4 : col + 2 ≤ r.width) :
    r.index x y = (⌊(y - r.f) / r.e⌋, ⌊(x - r.c) / r.a⌋) ∧
    r.samplePatch x y =
      [some (r.data (row - 1) (col - 1)), some (r.data (row - 1) col),
       some (r.data (row - 1) (col + 1)),
       some (r.data row (col - 1)), some (r.data row col),
       some (r.data row (col + 1)),
       some (r.data (row + 1) (col - 1)), some (r.data (row + 1) col),
       some (r.data (row + 1) (col + 1))] ∧
    neighborCols band =
      [band ++ "_1", band ++ "_2", band ++ "_3", band ++ "_4", band ++ "_5",
       band ++ "_6", band ++ "_7", band ++ "_8", band ++ "_9"] := by
  refine ⟨rfl, ?_, neighborCols_explicit band⟩
  rw [Raster.samplePatch, hidx]
  exact r.patchAt_inside row col h1 h2 h3 h4

/-- Witness for C4: the center point of the 3x3 grid raster yields the
full raster as its patch, row-major. -/
theorem neighborhood_window_layout_witness :
    gridRaster.samplePatch (3/2) (-3/2) =
      [some 0, some 1, some 2, some 10, some 11, some 12,
       some 20, some 21, some 22] ∧
    neighborCols "B04" =
      ["B04_1", "B04_2", "B04_3", "B04_4", "B04_5",
       "B04_6", "B04_7", "B04_8", "B04_9"] := by
  have hidx : gridRaster.index (3/2) (-3/2) = (((1 : ℕ) : ℤ), ((1 : ℕ) : ℤ)) := by
    rw [Raster.index, Raster.rowOf, Raster.colOf]
    rw [Prod.ext_iff]
    constructor <;> · norm_num [gridRaster]
  obtain ⟨-, hpatch, hnames⟩ :=
    neighborhood_window_layout gridRaster (3/2) (-3/2) 1 1 "B04" hidx
      (by decide) (by decide) (by decide) (by decide)
  refine ⟨?_, hnames⟩
  rw [hpatch]
  norm_num [gridRaster]

/-- C2 (confirmed): for a point whose containing pixel and full 3x3
window lie inside the extent, the NeighborhoodSampler returns exactly
nine values and its fifth value (column suffix `_5`) equals what the
ScalarSampler returns for the same point and raster. -/
theorem neighborhood_center_matches_scalar (r : Raster) (x y : ℚ)
    (row col : ℕ)
    (hidx : r.index x y = ((row : ℤ), (col : ℤ)))
    (h1 : 1 ≤ row) (h2 : row + 2 ≤ r.height)
    (h3 : 1 ≤ col) (h4 : col + 2 ≤ r.width) :
    (r.samplePatch x y).length = 9 ∧
    (r.samplePatch x y).getD 4 none = r.sampleScalar x y := by
  have hpatch : r.samplePatch x y =
      [some (r.data (row - 1) (col - 1)), some (r.data (row - 1) col),
       some (r.data (row - 1) (col + 1)),
       some (r.data row (col - 1)), some (r.data row col),
       some (r.data row (col + 1)),
       some (r.data (row + 1) (col - 1)), some (r.data (row + 1) col),
       some (r.data (row + 1) (col + 1))] := by
    rw [Raster.samplePatch, hidx]
    exact r.patchAt_inside row col h1 h2 h3 h4
  constructor
  · rw [hpatch]
    rfl
  · rw [hpatch, Raster.sampleScalar, hidx]
    rw [if_pos]
    · simp
    · refine ⟨by omega, by push_cast; omega, by omega, by push_cast; omega⟩

/-- Witness for C2: at the grid raster's center point the patch has
nine values and its fifth equals the scalar sample. -/
theorem neighborhood_center_matches_scalar_witness :
    (gridRaster.samplePatch (3/2) (-3/2)).length = 9 ∧
    (gridRaster.samplePatch (3/2) (-3/2)).getD 4 none =
      gridRaster.sampleScalar (3/2) (-3/2) := by
  have hidx : gridRaster.index (3/2) (-3/2) = (((1 : ℕ) : ℤ), ((1 : ℕ) : ℤ)) := by
    rw [Raster.index, Raster.rowOf, Raster.colOf]
    rw [Prod.ext_iff]
    constructor <;> · norm_num [gridRaster]
  exact neighborhood_center_matches_scalar gridRaster (3/2) (-3/2) 1 1 hidx
    (by decide) (by decide) (by decide) (by decide)

/-- C3 counterexample: on a raster with no declared nodata value, an
out-of-extent coordinate makes `src.sample` yield the fill value 0 - a
real number, not the not-a-number sentinel the claim requires. -/
theorem scalar_oob_counterexample :
    ¬ yieldRasterPlain.inExtent (yieldRasterPlain.index 10 10).1
        (yieldRasterPlain.index 10 10).2 ∧
    yieldRasterPlain.sampleScalar 10 10 = some 0 ∧
    (some (0 : ℚ) : Val) ≠ (none : Val) := by
  have hidx : yieldRasterPlain.index 10 10 = (-10, 10) := by
    rw [Raster.index, Raster.rowOf, Raster.colOf]
    rw [Prod.ext_iff]
    constructor <;> · norm_num [yieldRasterPlain]
  have hoob : ¬ yieldRasterPlain.inExtent (yieldRasterPlain.index 10 10).1
      (yieldRasterPlain.index 10 10).2 := by
    rw [hidx]
    decide
  refine ⟨hoob, ?_, by simp⟩
  rw [Raster.sampleScalar, if_neg hoob]
  rfl

/-- C3 (corrected): for an out-of-extent coordinate the ScalarSampler
returns the raster's nodata fill value - the declared nodata value when
one exists (hence the NaN sentinel exactly when the raster declares NaN
as nodata), plain 0 otherwise - rather than raising, and sampling stays
total: the batch result keeps one value per input point. -/
theorem scalar_oob_returns_fill (r : Raster) (x y : ℚ)
    (h : ¬ r.inExtent (r.index x y).1 (r.index x y).2) :
    r.sampleScalar x y = r.fillValue ∧
    (r.nodata = some none → r.sampleScalar x y = none) ∧
    ∀ pts : List (ℚ × ℚ), (r.sampleScalars pts).length = pts.length := by
  have hfill : r.sampleScalar x y = r.fillValue := by
    rw [Raster.sampleScalar, if_neg h]
  refine ⟨hfill, fun hn => ?_, fun pts => by simp [Raster.sampleScalars]⟩
  rw [hfill, Raster.fillValue, hn]
  rfl

/-- Witness for C3 (corrected): a raster declaring NaN as its nodata
value yields the sentinel for an out-of-extent point. -/
theorem scalar_oob_returns_fill_witness :
    yieldRasterNaN.sampleScalar 10 10 = none := by
  have hidx : yieldRasterNaN.index 10 10 = (-10, 10) := by
    rw [Raster.index, Raster.rowOf, Raster.colOf]
    rw [Prod.ext_iff]
    constructor <;> · norm_num [yieldRasterNaN]
  exact (scalar_oob_returns_fill yieldRasterNaN 10 10
    (by rw [hidx]; decide)).2.1 rfl

/-- C6 (confirmed): each derived index (NDVI, NDRE, GNDVI) is the
normalized difference `(A - B) / (A + B)` of its two designated
center-pixel columns, computed only when both `_5` columns exist
(otherwise the index column is omitted without error); a zero
denominator - 0/0 or a ±infinity result - becomes the sentinel; NDVI of
B08_5 = 50, B04_5 = 30 is exactly 0.25 and of B08_5 = 0, B04_5 = 0 is
the sentinel. -/
theorem vegetation_index_normdiff (cs : List (String × List Val)) :
    (∀ c8 c4 : List Val, lookupCol cs "B08_5" = some c8 →
      lookupCol cs "B04_5" = some c4 →
      lookupCol (viData cs) "NDVI" = some (List.zipWith normDiff c8 c4)) ∧
    (∀ c8 c5 : List Val, lookupCol cs "B08_5" = some c8 →
      lookupCol cs "B05_5" = some c5 →
      lookupCol (viData cs) "NDRE" = some (List.zipWith normDiff c8 c5)) ∧
    (∀ c8 c3 : List Val, lookupCol cs "B08_5" = some c8 →
      lookupCol cs "B03_5" = some c3 →
      lookupCol (viData cs) "GNDVI" = some (List.zipWith normDiff c8 c3)) ∧
    (lookupCol cs "B08_5" = none → viData cs = []) ∧
    (lookupCol cs "B04_5" = none → lookupCol (viData cs) "NDVI" = none) ∧
    (∀ qa qb : ℚ, qa + qb ≠ 0 →
      normDiff (some qa) (some qb) = some ((qa - qb) / (qa + qb))) ∧
    normDiff (some 50) (some 30) = some (0.25 : ℚ) ∧
    normDiff (some 0) (some 0) = none := by
  have e8 : ("B08" ++ "_5" : String) = "B08_5" := rfl
  have e4 : ("B04" ++ "_5" : String) = "B04_5" := rfl
  have e5 : ("B05" ++ "_5" : String) = "B05_5" := rfl
  have e3 : ("B03" ++ "_5" : String) = "B03_5" := rfl
  refine ⟨?_, ?_, ?_, ?_, ?_, ?_, ?_, ?_⟩
  · intro c8 c4 h8 h4
    rcases hB : lookupCol cs "B05_5" with _ | c5 <;>
      rcases hC : lookupCol cs "B03_5" with _ | c3 <;>
        (simp only [viData, viPair, e8, e4, e5, e3, h8, h4, hB, hC];
         simp [lookupCol, List.find?_cons])
  · intro c8 c5 h8 h5
    rcases hA : lookupCol cs "B04_5" with _ | c4 <;>
      rcases hC : lookupCol cs "B03_5" with _ | c3 <;>
        (simp only [viData, viPair, e8, e4, e5, e3, h8, h5, hA, hC];
         simp [lookupCol, List.find?_cons])
  · intro c8 c3 h8 h3
    rcases hA : lookupCol cs "B04_5" with _ | c4 <;>
      rcases hB : lookupCol cs "B05_5" with _ | c5 <;>
        (simp only [viData, viPair, e8, e4, e5, e3, h8, h3, hA, hB];
         simp [lookupCol, List.find?_cons])
  · intro h8
    simp only [viData, viPair, e8, e4, e5, e3, h8]
    rfl
  · intro h4
    rcases h8 : lookupCol cs "B08_5" with _ | c8 <;>
      rcases hB : lookupCol cs "B05_5" with _ | c5 <;>
        rcases hC : lookupCol cs "B03_5" with _ | c3 <;>
          (simp only [viData, viPair, e8, e4, e5, e3, h8, h4, hB, hC];
           simp [lookupCol, List.find?_cons])
  · intro qa qb h
    simp [normDiff, h]
  · norm_num [normDiff]
  · simp [normDiff]

/-- Witness for C6: with center columns B08_5 = [50, 0] and
B04_5 = [30, 0], NDVI is [0.25, sentinel]. -/
theorem vegetation_index_normdiff_witness :
    lookupCol (viData [("B08_5", [some 50, some 0]),
        ("B04_5", [some 30, some 0])]) "NDVI" =
      some [some (0.25 : ℚ), none] := by
  have h := (vegetation_index_normdiff
      [("B08_5", [some 50, some 0]), ("B04_5", [some 30, some 0])]).1
      [some 50, some 0] [some 30, some 0] rfl rfl
  rw [h]
  norm_num [normDiff]

/-- C5 (confirmed): for any input table, any mix of in-bounds and
out-of-bounds points and any non-zero number of discovered bands, the
assembled feature table keeps exactly one row per input point (its row
count equals the input point count and every column has one cell per
point), and every band column lists, in original point order, the patch
cell of each input point - failed samples appear as sentinel cells, rows
are never dropped. -/
theorem feature_table_row_invariant (df0 : DataFrame)
    (ptsW ptsP : List (ℚ × ℚ)) (yields bands : List (String × Raster))
    (hdf : df0.nrows = ptsP.length)
    (hw : ptsW.length = ptsP.length)
    (hcols : ∀ cv ∈ df0.cols, cv.2.length = ptsP.length)
    (hbs : bands ≠ []) :
    (addRasterFeatures df0 ptsW ptsP yields bands).nrows = ptsP.length ∧
    (∀ cv ∈ (addRasterFeatures df0 ptsW ptsP yields bands).cols,
        cv.2.length = ptsP.length) ∧
    (∀ (band : String) (r : Raster), (band, r) ∈ bands → ∀ j, j < 9 →
      (band ++ "_" ++ toString (j + 1),
        ptsP.map fun p => (r.samplePatch p.1 p.2).getD j none) ∈
        (addRasterFeatures df0 ptsW ptsP yields bands).cols) := by
  have hdf1cols : ∀ cv ∈ (addYieldFeatures df0 yields ptsW).cols,
      cv.2.length = ptsP.length := by
    intro cv hcv
    rw [addYieldFeatures] at hcv
    rcases List.mem_append.mp hcv with hin | hin
    · exact hcols cv hin
    · obtain ⟨yr, _, rfl⟩ := List.mem_map.mp hin
      simp [Raster.sampleScalars, hw]
  have hband : ∀ cv ∈ allBandData bands ptsP, cv.2.length = ptsP.length := by
    intro cv hcv
    rw [allBandData] at hcv
    obtain ⟨br, _, hcv2⟩ := List.mem_flatMap.mp hcv
    rw [bandColumns] at hcv2
    obtain ⟨j, _, rfl⟩ := List.mem_map.mp hcv2
    simp
  have hdf2cols : ∀ cv ∈ ((addYieldFeatures df0 yields ptsW).hconcat
      (DataFrame.ofCols (allBandData bands ptsP))).cols,
      cv.2.length = ptsP.length := by
    intro cv hcv
    rcases List.mem_append.mp hcv with hin | hin
    · exact hdf1cols cv hin
    · exact hband cv hin
  have hvicols : ∀ cv ∈ viData ((addYieldFeatures df0 yields ptsW).hconcat
      (DataFrame.ofCols (allBandData bands ptsP))).cols,
      cv.2.length = ptsP.length := by
    intro cv hcv
    obtain ⟨nm, colA, colB, rfl, ⟨kA, hkA⟩, ⟨kB, hkB⟩⟩ :=
      viData_col_shape _ cv hcv
    have lA := hdf2cols (kA, colA) hkA
    have lB := hdf2cols (kB, colB) hkB
    simp only at lA lB
    simp [lA, lB]
  have hofc : ∀ (cs : List (String × List Val)),
      (∀ cv ∈ cs, cv.2.length = ptsP.length) →
      (DataFrame.ofCols cs).nrows ≤ ptsP.length := by
    intro cs hcs
    refine foldr_max_le _ _ ?_
    intro m hm
    obtain ⟨cv, hcv, rfl⟩ := List.mem_map.mp hm
    exact le_of_eq (hcs cv hcv)
  refine ⟨?_, ?_, ?_⟩
  · show max (max (addYieldFeatures df0 yields ptsW).nrows _) _ = ptsP.length
    have h1 : (addYieldFeatures df0 yields ptsW).nrows = ptsP.length := hdf
    have h2 := hofc _ hband
    have h3 := hofc _ hvicols
    omega
  · intro cv hcv
    rcases List.mem_append.mp hcv with hin | hin
    · exact hdf2cols cv hin
    · exact hvicols cv hin
  · intro band r hbr j hj
    refine List.mem_append_left _ (List.mem_append_right _ ?_)
    refine List.mem_flatMap.mpr ⟨(band, r), hbr, ?_⟩
    rw [bandColumns]
    exact List.mem_map.mpr ⟨j, List.mem_range.mpr hj, rfl⟩

/-- Witness for C5: one in-bounds point, one yield raster and one band
produce a one-row table. -/
theorem feature_table_row_invariant_witness :
    (addRasterFeatures ⟨1, []⟩ [(10, 10)] [(3/2, -3/2)]
        [("yld_crop", yieldRasterPlain)] [("B04", gridRaster)]).nrows = 1 :=
  (feature_table_row_invariant ⟨1, []⟩ [(10, 10)] [(3/2, -3/2)]
    [("yld_crop", yieldRasterPlain)] [("B04", gridRaster)]
    rfl rfl (by simp) (by simp)).1
